import Mathlib

/-!
Verification of the plugin-chain protocol engine of the `@hai3/api` package.

The development shallowly embeds three modules:

* `RestProtocol` (packages/api/src/protocols, second document in SseProtocol.ts):
  the request pipeline `request` together with its six plugin-chain executors
  (`executeClassPluginOnRequest` / `OnResponse` / `OnError` and the legacy
  `executeLegacyOnRequest` / `OnResponse` / `OnError`).  Each executor is
  instrumented with a trace of events (`Ev`) recording which hook of which
  plugin ran, and whether the transport was invoked, so ordering claims can be
  stated about executions.
* `ApiRegistryImpl.plugins` (packages/api/src/apiRegistry.ts): the global
  plugin registration list and its operations `add`, `has`, `getPlugin`,
  `addBefore`, `addAfter`, `remove`.  JavaScript class identity is modelled by
  a numeric constructor token `ctor` plus the list `supers` of ancestor
  tokens; `x instanceof C` is `x.ctor = C or C ∈ x.supers`, while
  `x.constructor === y.constructor` is `x.ctor = y.ctor`.
* `MockEventSource` (packages/api/src/mocks/MockEventSource.ts): the
  `startEmitting` coroutine and `close` are modelled as a small-step machine
  whose interleavings over-approximate the single-threaded JavaScript
  scheduling; `close` may be interposed at any suspension point, in
  particular while a delay timer for the next event is already pending.
-/

/-- Trace events emitted by the instrumented `RestProtocol.request` pipeline.
`reqC i` / `respC i` / `errC i` record the class-based `onRequest` /
`onResponse` / `onError` hook of the plugin at position `i` of the merged
class-based list; `reqL` / `respL` / `errL` are the legacy-chain analogues;
`transport` records the actual HTTP call. -/
inductive Ev
  | reqC (i : Nat)
  | respC (i : Nat)
  | errC (i : Nat)
  | reqL (i : Nat)
  | respL (i : Nat)
  | errL (i : Nat)
  | transport
  deriving DecidableEq, Repr

/-- `ApiRequestContext` from types.ts: method, url, headers, body.  The body
payload is opaque to the engine and modelled as an optional `Nat`. -/
structure ApiRequestContext where
  method : String
  url : String
  headers : List (String × String)
  body : Option Nat
  deriving DecidableEq, Repr

/-- `ApiResponseContext` from types.ts: status, headers, data.  The data
payload is opaque to the engine and modelled as a `Nat`. -/
structure ApiResponseContext where
  status : Nat
  headers : List (String × String)
  data : Nat
  deriving DecidableEq, Repr

/-- A JavaScript `Error` value, carrying only its message. -/
structure ApiError where
  message : String
  deriving DecidableEq, Repr

/-- A class-based plugin (`ApiPluginBase` in types.ts): an optional hook for
each phase.  `onRequest` returns either a new request context (`Sum.inl`) or
a short-circuit response (`Sum.inr`, the `{ shortCircuit: response }` wrapper
recognised by `isShortCircuit`).  `onError` returns either a transformed
error (`Sum.inl`) or a recovery response (`Sum.inr`). -/
structure ApiPluginBase where
  onRequest : Option (ApiRequestContext → ApiRequestContext ⊕ ApiResponseContext)
  onResponse : Option (ApiResponseContext → ApiResponseContext)
  onError : Option (ApiError → ApiRequestContext → ApiError ⊕ ApiResponseContext)

/-- Legacy-chain request context (`ApiPluginRequestContext` plus the dynamic
`__mockResponse` sentinel property): the request data, and `mockResponse`
present exactly when the `__mockResponse` property has been set. -/
structure LegacyRequestContext where
  ctx : ApiRequestContext
  mockResponse : Option Nat
  deriving DecidableEq, Repr

/-- A legacy plugin (`LegacyApiPlugin`): optional hooks; its `onRequest` may
set the `__mockResponse` sentinel on the context; its `onError` may only
transform the error. -/
structure LegacyApiPlugin where
  onRequest : Option (LegacyRequestContext → LegacyRequestContext)
  onResponse : Option (ApiResponseContext → ApiResponseContext)
  onError : Option (ApiError → ApiRequestContext → ApiError)

/-- Pair each list element with its position, starting at `i` (the
instrumentation indexing used to name plugins in traces). -/
def withIdxFrom (i : Nat) : List α → List (Nat × α)
  | [] => []
  | a :: as => (i, a) :: withIdxFrom (i + 1) as

/-- Pair each list element with its 0-based position. -/
def withIdx (l : List α) : List (Nat × α) := withIdxFrom 0 l

/-- Loop body of `RestProtocol.executeClassPluginOnRequest`: walk the plugins
in order; skip plugins without an `onRequest` hook; on a short-circuit result
stop the chain immediately and return it; otherwise thread the new context. -/
def classOnRequestGo : List (Nat × ApiPluginBase) → ApiRequestContext →
    (ApiRequestContext ⊕ ApiResponseContext) × List Ev
  | [], ctx => (Sum.inl ctx, [])
  | (i, p) :: ps, ctx =>
    match p.onRequest with
    | none => classOnRequestGo ps ctx
    | some f =>
      match f ctx with
      | Sum.inr sc => (Sum.inr sc, [Ev.reqC i])
      | Sum.inl ctx' =>
        let r := classOnRequestGo ps ctx'
        (r.1, Ev.reqC i :: r.2)

/-- `RestProtocol.executeClassPluginOnRequest`: FIFO over the merged
class-based plugin list. -/
def executeClassPluginOnRequest (plugins : List ApiPluginBase)
    (context : ApiRequestContext) :
    (ApiRequestContext ⊕ ApiResponseContext) × List Ev :=
  classOnRequestGo (withIdx plugins) context

/-- Loop body of `RestProtocol.executeClassPluginOnResponse`: apply each
plugin's `onResponse` (when present) to the threaded response context; the
phase never short-circuits. -/
def classOnResponseGo : List (Nat × ApiPluginBase) → ApiResponseContext →
    ApiResponseContext × List Ev
  | [], ctx => (ctx, [])
  | (i, p) :: ps, ctx =>
    match p.onResponse with
    | none => classOnResponseGo ps ctx
    | some f =>
      let r := classOnResponseGo ps (f ctx)
      (r.1, Ev.respC i :: r.2)

/-- `RestProtocol.executeClassPluginOnResponse`: the class-based plugin list
reversed (LIFO, onion model). -/
def executeClassPluginOnResponse (plugins : List ApiPluginBase)
    (context : ApiResponseContext) : ApiResponseContext × List Ev :=
  classOnResponseGo (withIdx plugins).reverse context

/-- Loop body of `RestProtocol.executeClassPluginOnError`: thread the current
error through each plugin's `onError` (when present); a plugin returning a
response context is a recovery and stops the chain at that plugin; a plugin
returning an error replaces the current error and the chain continues. -/
def classOnErrorGo : List (Nat × ApiPluginBase) → ApiError → ApiRequestContext →
    (ApiError ⊕ ApiResponseContext) × List Ev
  | [], e, _ => (Sum.inl e, [])
  | (i, p) :: ps, e, rc =>
    match p.onError with
    | none => classOnErrorGo ps e rc
    | some f =>
      match f e rc with
      | Sum.inr resp => (Sum.inr resp, [Ev.errC i])
      | Sum.inl e' =>
        let r := classOnErrorGo ps e' rc
        (r.1, Ev.errC i :: r.2)

/-- `RestProtocol.executeClassPluginOnError`: the class-based plugin list
reversed (LIFO). -/
def executeClassPluginOnError (plugins : List ApiPluginBase) (error : ApiError)
    (context : ApiRequestContext) : (ApiError ⊕ ApiResponseContext) × List Ev :=
  classOnErrorGo (withIdx plugins).reverse error context

/-- Loop body of `RestProtocol.executeLegacyOnRequest`: walk the legacy
plugins in order; after each `onRequest` call, if the `__mockResponse`
sentinel is present on the resulting context, break out of the loop. -/
def legacyOnRequestGo : List (Nat × LegacyApiPlugin) → LegacyRequestContext →
    LegacyRequestContext × List Ev
  | [], ctx => (ctx, [])
  | (i, p) :: ps, ctx =>
    match p.onRequest with
    | none => legacyOnRequestGo ps ctx
    | some f =>
      let ctx' := f ctx
      if ctx'.mockResponse.isSome then (ctx', [Ev.reqL i])
      else
        let r := legacyOnRequestGo ps ctx'
        (r.1, Ev.reqL i :: r.2)

/-- `RestProtocol.executeLegacyOnRequest`: FIFO over the legacy plugin list. -/
def executeLegacyOnRequest (plugins : List LegacyApiPlugin)
    (context : LegacyRequestContext) : LegacyRequestContext × List Ev :=
  legacyOnRequestGo (withIdx plugins) context

/-- Loop body of `RestProtocol.executeLegacyOnResponse`. -/
def legacyOnResponseGo : List (Nat × LegacyApiPlugin) → ApiResponseContext →
    ApiResponseContext × List Ev
  | [], ctx => (ctx, [])
  | (i, p) :: ps, ctx =>
    match p.onResponse with
    | none => legacyOnResponseGo ps ctx
    | some f =>
      let r := legacyOnResponseGo ps (f ctx)
      (r.1, Ev.respL i :: r.2)

/-- `RestProtocol.executeLegacyOnResponse`: the legacy plugin list reversed. -/
def executeLegacyOnResponse (plugins : List LegacyApiPlugin)
    (context : ApiResponseContext) : ApiResponseContext × List Ev :=
  legacyOnResponseGo (withIdx plugins).reverse context

/-- Loop body of `RestProtocol.executeLegacyOnError`: legacy plugins may only
transform the error. -/
def legacyOnErrorGo : List (Nat × LegacyApiPlugin) → ApiError → ApiRequestContext →
    ApiError × List Ev
  | [], e, _ => (e, [])
  | (i, p) :: ps, e, rc =>
    match p.onError with
    | none => legacyOnErrorGo ps e rc
    | some f =>
      let r := legacyOnErrorGo ps (f e rc) rc
      (r.1, Ev.errL i :: r.2)

/-- `RestProtocol.executeLegacyOnError`: the legacy plugin list reversed. -/
def executeLegacyOnError (plugins : List LegacyApiPlugin) (error : ApiError)
    (context : ApiRequestContext) : ApiError × List Ev :=
  legacyOnErrorGo (withIdx plugins).reverse error context

/-- Outcome of the opaque transport (`this.client.request`): a response
context or a thrown error. -/
inductive TransportResult
  | ok (resp : ApiResponseContext)
  | err (e : ApiError)
  deriving DecidableEq, Repr

/-- `RestProtocol.request`: the full pipeline.  Control flow mirrors the
source: class-based `onRequest` chain; on a class short-circuit run the
class-based `onResponse` chain over the short-circuit response and return its
data; otherwise legacy `onRequest` chain; on the `__mockResponse` sentinel
return the sentinel value immediately; otherwise invoke the transport; on
success run legacy `onResponse` then class-based `onResponse` and return the
final data; on a transport error run legacy `onError` then class-based
`onError` and either return a recovery response's data or raise the final
error.  The second component is the trace of hook/transport events. -/
def request (classPlugins : List ApiPluginBase)
    (legacyPlugins : List LegacyApiPlugin)
    (transport : ApiRequestContext → TransportResult)
    (context : ApiRequestContext) : (ApiError ⊕ Nat) × List Ev :=
  match executeClassPluginOnRequest classPlugins context with
  | (Sum.inr sc, t1) =>
    let pr := executeClassPluginOnResponse classPlugins sc
    (Sum.inr pr.1.data, t1 ++ pr.2)
  | (Sum.inl processedContext, t1) =>
    let lr := executeLegacyOnRequest legacyPlugins
      { ctx := processedContext, mockResponse := none }
    match lr.1.mockResponse with
    | some d => (Sum.inr d, t1 ++ lr.2)
    | none =>
      match transport lr.1.ctx with
      | TransportResult.ok resp =>
        let lresp := executeLegacyOnResponse legacyPlugins resp
        let fresp := executeClassPluginOnResponse classPlugins lresp.1
        (Sum.inr fresp.1.data, t1 ++ lr.2 ++ [Ev.transport] ++ lresp.2 ++ fresp.2)
      | TransportResult.err e =>
        let le := executeLegacyOnError legacyPlugins e context
        match executeClassPluginOnError classPlugins le.1 context with
        | (Sum.inr resp, t4) =>
          (Sum.inr resp.data, t1 ++ lr.2 ++ [Ev.transport] ++ le.2 ++ t4)
        | (Sum.inl e', t4) =>
          (Sum.inl e', t1 ++ lr.2 ++ [Ev.transport] ++ le.2 ++ t4)

/-- Positions of the plugins (in an indexed plugin list) that carry an
`onRequest` hook. -/
def reqHookIdx (l : List (Nat × ApiPluginBase)) : List Nat :=
  (l.filter (fun x => x.2.onRequest.isSome)).map (fun x => x.1)

/-- Positions of the plugins that carry an `onResponse` hook. -/
def respHookIdx (l : List (Nat × ApiPluginBase)) : List Nat :=
  (l.filter (fun x => x.2.onResponse.isSome)).map (fun x => x.1)

/-- Positions of the plugins that carry an `onError` hook. -/
def errHookIdx (l : List (Nat × ApiPluginBase)) : List Nat :=
  (l.filter (fun x => x.2.onError.isSome)).map (fun x => x.1)

/-- Is the event a class-based `onRequest` invocation? -/
def isReqC : Ev → Bool
  | Ev.reqC _ => true
  | _ => false

/-- Is the event a class-based `onResponse` invocation? -/
def isRespC : Ev → Bool
  | Ev.respC _ => true
  | _ => false

/-- Is the event a class-based `onError` invocation? -/
def isErrC : Ev → Bool
  | Ev.errC _ => true
  | _ => false

/-- Is the event a class-based `onRequest` or `onResponse` invocation? -/
def isClassRR (e : Ev) : Bool := isReqC e || isRespC e

/-- Is the event any response-phase invocation (legacy or class-based)? -/
def isRespAny : Ev → Bool
  | Ev.respC _ => true
  | Ev.respL _ => true
  | _ => false

/-- A registered plugin instance for the `ApiRegistryImpl` model.  `ctor` is
the token of its concrete class (JavaScript `constructor`); `supers` lists
the tokens of its strict ancestor classes (the rest of the prototype chain);
`instId` is the object identity of the instance; `hasDestroy` records
whether the instance has a `destroy` method, and `destroyThrows` whether
calling it throws. -/
structure PluginInst where
  ctor : Nat
  supers : List Nat
  instId : Nat
  hasDestroy : Bool
  destroyThrows : Bool
  deriving DecidableEq, Repr

/-- JavaScript `p instanceof cls`: true when `cls` is `p`'s concrete class or
one of its ancestors. -/
def instanceOfClass (p : PluginInst) (cls : Nat) : Bool :=
  p.ctor == cls || p.supers.contains cls

/-- `ApiRegistryImpl.plugins.add`: for each argument in order, throw if an
already-registered plugin has the same constructor, otherwise append it.
Returns the resulting global list (mutations before a throw persist) and
whether an error was thrown. -/
def pluginsAdd (l : List PluginInst) : List PluginInst → List PluginInst × Bool
  | [] => (l, false)
  | p :: ps =>
    if l.any (fun q => q.ctor == p.ctor) then (l, true)
    else pluginsAdd (l ++ [p]) ps

/-- `ApiRegistryImpl.plugins.has`: `some`-search by `instanceof`. -/
def pluginsHas (l : List PluginInst) (cls : Nat) : Bool :=
  l.any (fun p => instanceOfClass p cls)

/-- `ApiRegistryImpl.plugins.getPlugin`: `find`-search by `instanceof`. -/
def pluginsGetPlugin (l : List PluginInst) (cls : Nat) : Option PluginInst :=
  l.find? (fun p => instanceOfClass p cls)

/-- `ApiRegistryImpl.plugins.addBefore`: throw on a duplicate constructor of
the inserted plugin; then locate the target by `instanceof` and throw if
absent; otherwise splice the plugin in at the target's index.  Returns the
resulting list and whether an error was thrown. -/
def pluginsAddBefore (l : List PluginInst) (p : PluginInst) (before : Nat) :
    List PluginInst × Bool :=
  if l.any (fun q => q.ctor == p.ctor) then (l, true)
  else
    match l.findIdx? (fun q => instanceOfClass q before) with
    | none => (l, true)
    | some i => (l.take i ++ p :: l.drop i, false)

/-- `ApiRegistryImpl.plugins.addAfter`: like `addBefore` but splices at the
index after the target. -/
def pluginsAddAfter (l : List PluginInst) (p : PluginInst) (after : Nat) :
    List PluginInst × Bool :=
  if l.any (fun q => q.ctor == p.ctor) then (l, true)
  else
    match l.findIdx? (fun q => instanceOfClass q after) with
    | none => (l, true)
    | some i => (l.take (i + 1) ++ p :: l.drop (i + 1), false)

/-- Outcome of `ApiRegistryImpl.plugins.remove`: thrown error, if any. -/
inductive RemoveErr
  | notFound
  | destroyFailed
  deriving DecidableEq, Repr

/-- `ApiRegistryImpl.plugins.remove`: locate the plugin by `instanceof` and
throw `notFound` if absent; call `destroy()` when present — a throwing
`destroy()` propagates before the splice, so the list is left unchanged —
then splice the plugin out.  Returns the resulting list and the thrown
error, if any. -/
def pluginsRemove (l : List PluginInst) (cls : Nat) :
    List PluginInst × Option RemoveErr :=
  match l.findIdx? (fun q => instanceOfClass q cls) with
  | none => (l, some RemoveErr.notFound)
  | some i =>
    match l.get? i with
    | some p =>
      if p.hasDestroy && p.destroyThrows then (l, some RemoveErr.destroyFailed)
      else (l.take i ++ l.drop (i + 1), none)
    | none => (l.take i ++ l.drop (i + 1), none)

/-- Coroutine position of `MockEventSource.startEmitting`: `running i` is the
top of the loop iteration for event `i` (about to test the loop condition and
the abort flag, then start the delay timer); `sleeping i` is suspended in the
delay before emitting event `i`; `done` means the coroutine has returned. -/
inductive EmitPhase
  | running (i : Nat)
  | sleeping (i : Nat)
  | done
  deriving DecidableEq, Repr

/-- Observable state of a `MockEventSource` over `n` queued events:
the coroutine phase, the `readyState` field (0 CONNECTING, 1 OPEN,
2 CLOSED), the abort flag of the `AbortController`, and the indices of the
events emitted so far (each emission delivers the event to `onmessage`
and/or the registered listeners). -/
structure MesState where
  phase : EmitPhase
  readyState : Nat
  aborted : Bool
  emitted : List Nat
  deriving DecidableEq, Repr

/-- An atomic step of the machine: `tick` lets the `startEmitting` coroutine
advance one synchronous block; `close` is a call to `close()` by the
environment, which may be interposed at any point — in particular while the
coroutine is `sleeping`, i.e. when the delay timer for the next event is
already scheduled. -/
inductive MesAct
  | tick
  | close
  deriving DecidableEq, Repr

/-- State right after the constructor ran `startEmitting` up to its first
suspension point: `readyState` is OPEN, nothing emitted, loop about to start. -/
def mesInit : MesState :=
  { phase := EmitPhase.running 0, readyState := 1, aborted := false, emitted := [] }

/-- `MockEventSource.close`: a no-op when already CLOSED; otherwise set
`readyState` to CLOSED and abort the controller. -/
def mesClose (s : MesState) : MesState :=
  if s.readyState = 2 then s
  else { s with readyState := 2, aborted := true }

/-- One coroutine step of `startEmitting` over `n` events.  At `running i`:
if the loop is exhausted, set `readyState` to CLOSED and return; otherwise
return if aborted, else start the sleep.  At `sleeping i`: if aborted, the
sleep rejected (or the post-sleep check fires) and the coroutine returns
without emitting; otherwise emit event `i` and continue the loop. -/
def mesTick (n : Nat) (s : MesState) : MesState :=
  match s.phase with
  | EmitPhase.done => s
  | EmitPhase.running i =>
    if i < n then
      if s.aborted then { s with phase := EmitPhase.done }
      else { s with phase := EmitPhase.sleeping i }
    else { s with phase := EmitPhase.done, readyState := 2 }
  | EmitPhase.sleeping i =>
    if s.aborted then { s with phase := EmitPhase.done }
    else { s with phase := EmitPhase.running (i + 1), emitted := s.emitted ++ [i] }

/-- Apply one action. -/
def mesStep (n : Nat) (s : MesState) : MesAct → MesState
  | MesAct.tick => mesTick n s
  | MesAct.close => mesClose s

/-- Run a sequence of actions. -/
def mesRun (n : Nat) (s : MesState) (acts : List MesAct) : MesState :=
  acts.foldl (mesStep n) s

section SampleValues

/-- A class-based plugin with all three hooks; its hooks pass contexts
through unchanged and transform errors by appending to the message. -/
def samplePluginA : ApiPluginBase where
  onRequest := some fun c => Sum.inl c
  onResponse := some fun r => { r with data := r.data + 1 }
  onError := some fun e _ => Sum.inl { message := e.message ++ "A" }

/-- A class-based plugin with no hooks at all. -/
def sampleNoHookPlugin : ApiPluginBase where
  onRequest := none
  onResponse := none
  onError := none

/-- A second fully-hooked class-based plugin. -/
def samplePluginB : ApiPluginBase where
  onRequest := some fun c => Sum.inl c
  onResponse := some fun r => { r with data := r.data * 2 }
  onError := some fun e _ => Sum.inl { message := e.message ++ "B" }

/-- A class-based plugin whose `onRequest` short-circuits with a canned
response and whose `onError` recovers with a canned response. -/
def sampleShortCircuitPlugin : ApiPluginBase where
  onRequest := some fun _ =>
    Sum.inr { status := 200, headers := [], data := 42 }
  onResponse := some fun r => { r with data := r.data + 1 }
  onError := some fun _ _ =>
    Sum.inr { status := 299, headers := [], data := 77 }

/-- A legacy plugin that passes everything through without short-circuiting. -/
def sampleLegacyPlugin : LegacyApiPlugin where
  onRequest := some fun lc => lc
  onResponse := some fun r => r
  onError := some fun e _ => e

/-- A legacy plugin that short-circuits by setting the `__mockResponse`
sentinel to `7`. -/
def sampleLegacyMockPlugin : LegacyApiPlugin where
  onRequest := some fun lc => { lc with mockResponse := some 7 }
  onResponse := some fun r => r
  onError := some fun e _ => e

/-- A concrete request context. -/
def sampleCtx : ApiRequestContext where
  method := "GET"
  url := "/users"
  headers := []
  body := none

/-- A concrete response context with data payload `5`. -/
def sampleResp : ApiResponseContext where
  status := 200
  headers := []
  data := 5

/-- A transport that always succeeds with `sampleResp`. -/
def sampleTransportOk : ApiRequestContext → TransportResult :=
  fun _ => TransportResult.ok sampleResp

/-- A transport that always fails. -/
def sampleTransportErr : ApiRequestContext → TransportResult :=
  fun _ => TransportResult.err { message := "network" }

end SampleValues
/-- A class-based plugin whose `onRequest` passes through and whose `onError`
recovers with a canned response. -/
def sampleRecoveryPlugin : ApiPluginBase where
  onRequest := some fun c => Sum.inl c
  onResponse := some fun r => r
  onError := some fun _ _ => Sum.inr { status := 299, headers := [], data := 77 }

/-- A registered plugin instance of class token 0. -/
def regPluginA : PluginInst :=
  { ctor := 0, supers := [], instId := 0, hasDestroy := false, destroyThrows := false }

/-- A second, distinct instance (different object identity) of the same
class token 0. -/
def regPluginA2 : PluginInst :=
  { ctor := 0, supers := [], instId := 1, hasDestroy := false, destroyThrows := false }

/-- A plugin instance of class token 1. -/
def regPluginB : PluginInst :=
  { ctor := 1, supers := [], instId := 2, hasDestroy := false, destroyThrows := false }

/-- A plugin instance whose concrete class (token 2) is a subclass of class
token 1. -/
def regPluginSub : PluginInst :=
  { ctor := 2, supers := [1], instId := 3, hasDestroy := false, destroyThrows := false }

/-- A plugin instance of class token 3 whose `destroy()` throws. -/
def regPluginThrows : PluginInst :=
  { ctor := 3, supers := [], instId := 4, hasDestroy := true, destroyThrows := true }

/-- A plugin instance of class token 5. -/
def regPluginC : PluginInst :=
  { ctor := 5, supers := [], instId := 5, hasDestroy := false, destroyThrows := false }

section TraceLemmas

/-- Filtering a trace built from one event constructor with a predicate that
rejects that constructor yields the empty list. -/
lemma filter_map_ev_nil (P : Ev → Bool) (g : Nat → Ev)
    (h : ∀ i, P (g i) = false) (l : List Nat) : (l.map g).filter P = [] :=
  List.filter_eq_nil_iff.mpr (by
    intro a ha
    obtain ⟨i, -, rfl⟩ := List.mem_map.mp ha
    simp [h])

/-- Filtering a trace built from one event constructor with a predicate that
accepts that constructor keeps the whole list. -/
lemma filter_map_ev_self (P : Ev → Bool) (g : Nat → Ev)
    (h : ∀ i, P (g i) = true) (l : List Nat) : (l.map g).filter P = l.map g :=
  List.filter_eq_self.mpr (by
    intro a ha
    obtain ⟨i, -, rfl⟩ := List.mem_map.mp ha
    simp [h])

/-- The transport event never appears in a trace built from an indexed event
constructor. -/
lemma transport_not_mem_map (g : Nat → Ev) (h : ∀ i, g i ≠ Ev.transport)
    (l : List Nat) : Ev.transport ∉ l.map g := by
  intro hmem
  obtain ⟨i, -, hi⟩ := List.mem_map.mp hmem
  exact h i hi

/-- Indices produced by `withIdxFrom i` are at least `i`. -/
lemma withIdxFrom_fst_ge : ∀ (l : List α) (i : Nat), ∀ x ∈ withIdxFrom i l, i ≤ x.1
  | [], _, _, hx => by simp [withIdxFrom] at hx
  | a :: as, i, x, hx => by
    simp only [withIdxFrom, List.mem_cons] at hx
    rcases hx with rfl | hx
    · exact Nat.le_refl i
    · exact Nat.le_of_succ_le (withIdxFrom_fst_ge as (i + 1) x hx)

/-- The indices produced by `withIdxFrom` are strictly increasing. -/
lemma withIdxFrom_pairwise : ∀ (l : List α) (i : Nat),
    List.Pairwise (fun a b : Nat × α => a.1 < b.1) (withIdxFrom i l)
  | [], _ => List.Pairwise.nil
  | a :: as, i => by
    refine List.Pairwise.cons ?_ (withIdxFrom_pairwise as (i + 1))
    intro x hx
    exact Nat.lt_of_succ_le (withIdxFrom_fst_ge as (i + 1) x hx)

/-- `withIdxFrom` distributes over append, shifting the start index. -/
lemma withIdxFrom_append : ∀ (xs ys : List α) (i : Nat),
    withIdxFrom i (xs ++ ys) = withIdxFrom i xs ++ withIdxFrom (i + xs.length) ys
  | [], ys, i => by simp [withIdxFrom]
  | x :: xs, ys, i => by
    show (i, x) :: withIdxFrom (i + 1) (xs ++ ys) =
      (i, x) :: withIdxFrom (i + 1) xs ++ withIdxFrom (i + (xs.length + 1)) ys
    rw [withIdxFrom_append xs ys (i + 1)]
    have hshift : i + 1 + xs.length = i + (xs.length + 1) := by omega
    rw [hshift]
    rfl

/-- The positions carrying an `onRequest` hook form a duplicate-free list. -/
lemma reqHookIdx_nodup (ps : List ApiPluginBase) : (reqHookIdx (withIdx ps)).Nodup := by
  have hp : List.Pairwise (fun a b : Nat × ApiPluginBase => a.1 < b.1) (withIdx ps) :=
    withIdxFrom_pairwise ps 0
  have hf := hp.filter (fun x => x.2.onRequest.isSome)
  have hm : List.Pairwise (fun a b : Nat => a < b)
      (((withIdx ps).filter (fun x => x.2.onRequest.isSome)).map (fun x => x.1)) :=
    List.pairwise_map.mpr hf
  exact hm.imp (fun h => Nat.ne_of_lt h)

/-- The positions carrying an `onResponse` hook form a duplicate-free list. -/
lemma respHookIdx_nodup (ps : List ApiPluginBase) : (respHookIdx (withIdx ps)).Nodup := by
  have hp : List.Pairwise (fun a b : Nat × ApiPluginBase => a.1 < b.1) (withIdx ps) :=
    withIdxFrom_pairwise ps 0
  have hf := hp.filter (fun x => x.2.onResponse.isSome)
  have hm : List.Pairwise (fun a b : Nat => a < b)
      (((withIdx ps).filter (fun x => x.2.onResponse.isSome)).map (fun x => x.1)) :=
    List.pairwise_map.mpr hf
  exact hm.imp (fun h => Nat.ne_of_lt h)

/-- Reversing the indexed plugin list reverses the `onResponse` positions. -/
lemma respHookIdx_reverse (l : List (Nat × ApiPluginBase)) :
    respHookIdx l.reverse = (respHookIdx l).reverse := by
  simp [respHookIdx, List.filter_reverse, List.map_reverse]

/-- Reversing the indexed plugin list reverses the `onError` positions. -/
lemma errHookIdx_reverse (l : List (Nat × ApiPluginBase)) :
    errHookIdx l.reverse = (errHookIdx l).reverse := by
  simp [errHookIdx, List.filter_reverse, List.map_reverse]

/-- When the class `onRequest` chain does not short-circuit, its trace is one
`reqC` event per plugin carrying an `onRequest` hook, in list order. -/
lemma classOnRequestGo_inl_trace : ∀ (l : List (Nat × ApiPluginBase))
    (ctx c : ApiRequestContext),
    (classOnRequestGo l ctx).1 = Sum.inl c →
    (classOnRequestGo l ctx).2 = (reqHookIdx l).map Ev.reqC
  | [], ctx, c, _ => by simp [classOnRequestGo, reqHookIdx]
  | (i, p) :: ps, ctx, c, h => by
    cases hp : p.onRequest with
    | none =>
      simp only [classOnRequestGo, hp] at h ⊢
      simp only [reqHookIdx, List.filter_cons, hp]
      simpa [reqHookIdx] using classOnRequestGo_inl_trace ps ctx c h
    | some f =>
      cases hf : f ctx with
      | inr sc =>
        simp only [classOnRequestGo, hp, hf] at h
        exact absurd h (by simp)
      | inl ctx' =>
        simp only [classOnRequestGo, hp, hf] at h ⊢
        simp only [reqHookIdx, List.filter_cons, hp, Option.isSome_some,
          List.map_cons]
        simpa [reqHookIdx] using classOnRequestGo_inl_trace ps ctx' c h

/-- Appending to a class `onRequest` chain that passed through without
short-circuiting continues the chain on the threaded context. -/
lemma classOnRequestGo_append : ∀ (xs ys : List (Nat × ApiPluginBase))
    (ctx c : ApiRequestContext),
    (classOnRequestGo xs ctx).1 = Sum.inl c →
    classOnRequestGo (xs ++ ys) ctx =
      ((classOnRequestGo ys c).1,
       (classOnRequestGo xs ctx).2 ++ (classOnRequestGo ys c).2)
  | [], ys, ctx, c, h => by
    simp only [classOnRequestGo] at h
    cases h
    simp [classOnRequestGo]
  | (i, p) :: xs, ys, ctx, c, h => by
    cases hp : p.onRequest with
    | none =>
      simp only [classOnRequestGo, List.cons_append, hp] at h ⊢
      exact classOnRequestGo_append xs ys ctx c h
    | some f =>
      cases hf : f ctx with
      | inr sc =>
        simp only [classOnRequestGo, hp, hf] at h
        exact absurd h (by simp)
      | inl ctx' =>
        simp only [classOnRequestGo, List.cons_append, hp, hf] at h ⊢
        have ih := classOnRequestGo_append xs ys ctx' c h
        simp only [List.append_eq]
        rw [ih]

/-- The class `onResponse` chain emits one `respC` event per plugin carrying
an `onResponse` hook, in list order. -/
lemma classOnResponseGo_trace : ∀ (l : List (Nat × ApiPluginBase))
    (ctx : ApiResponseContext),
    (classOnResponseGo l ctx).2 = (respHookIdx l).map Ev.respC
  | [], ctx => by simp [classOnResponseGo, respHookIdx]
  | (i, p) :: ps, ctx => by
    cases hp : p.onResponse with
    | none =>
      simp only [classOnResponseGo, hp]
      simp only [respHookIdx, List.filter_cons, hp]
      simpa [respHookIdx] using classOnResponseGo_trace ps ctx
    | some f =>
      simp only [classOnResponseGo, hp]
      simp only [respHookIdx, List.filter_cons, hp, Option.isSome_some,
        List.map_cons]
      simpa [respHookIdx] using classOnResponseGo_trace ps (f ctx)

/-- When the class `onError` chain ends with an unrecovered error, its trace
is one `errC` event per plugin carrying an `onError` hook, in list order. -/
lemma classOnErrorGo_inl_trace : ∀ (l : List (Nat × ApiPluginBase))
    (e : ApiError) (rc : ApiRequestContext) (e' : ApiError),
    (classOnErrorGo l e rc).1 = Sum.inl e' →
    (classOnErrorGo l e rc).2 = (errHookIdx l).map Ev.errC
  | [], e, rc, e', _ => by simp [classOnErrorGo, errHookIdx]
  | (i, p) :: ps, e, rc, e', h => by
    cases hp : p.onError with
    | none =>
      simp only [classOnErrorGo, hp] at h ⊢
      simp only [errHookIdx, List.filter_cons, hp]
      simpa [errHookIdx] using classOnErrorGo_inl_trace ps e rc e' h
    | some f =>
      cases hf : f e rc with
      | inr resp =>
        simp only [classOnErrorGo, hp, hf] at h
        exact absurd h (by simp)
      | inl e2 =>
        simp only [classOnErrorGo, hp, hf] at h ⊢
        simp only [errHookIdx, List.filter_cons, hp, Option.isSome_some,
          List.map_cons]
        simpa [errHookIdx] using classOnErrorGo_inl_trace ps e2 rc e' h

/-- Appending to a class `onError` chain that did not recover continues the
chain on the transformed error. -/
lemma classOnErrorGo_append : ∀ (xs ys : List (Nat × ApiPluginBase))
    (e : ApiError) (rc : ApiRequestContext) (e2 : ApiError),
    (classOnErrorGo xs e rc).1 = Sum.inl e2 →
    classOnErrorGo (xs ++ ys) e rc =
      ((classOnErrorGo ys e2 rc).1,
       (classOnErrorGo xs e rc).2 ++ (classOnErrorGo ys e2 rc).2)
  | [], ys, e, rc, e2, h => by
    simp only [classOnErrorGo] at h
    cases h
    simp [classOnErrorGo]
  | (i, p) :: xs, ys, e, rc, e2, h => by
    cases hp : p.onError with
    | none =>
      simp only [classOnErrorGo, List.cons_append, hp] at h ⊢
      exact classOnErrorGo_append xs ys e rc e2 h
    | some f =>
      cases hf : f e rc with
      | inr resp =>
        simp only [classOnErrorGo, hp, hf] at h
        exact absurd h (by simp)
      | inl e3 =>
        simp only [classOnErrorGo, List.cons_append, hp, hf] at h ⊢
        have ih := classOnErrorGo_append xs ys e3 rc e2 h
        simp only [List.append_eq]
        rw [ih]

/-- The legacy `onRequest` chain emits only `reqL` events. -/
lemma legacyOnRequestGo_trace : ∀ (l : List (Nat × LegacyApiPlugin))
    (ctx : LegacyRequestContext),
    ∃ idxs : List Nat, (legacyOnRequestGo l ctx).2 = idxs.map Ev.reqL
  | [], ctx => ⟨[], by simp [legacyOnRequestGo]⟩
  | (i, p) :: ps, ctx => by
    simp only [legacyOnRequestGo]
    cases hp : p.onRequest with
    | none => exact legacyOnRequestGo_trace ps ctx
    | some f =>
      by_cases hm : (f ctx).mockResponse.isSome
      · exact ⟨[i], by simp [hm]⟩
      · obtain ⟨idxs, hidxs⟩ := legacyOnRequestGo_trace ps (f ctx)
        exact ⟨i :: idxs, by simp [hm, hidxs]⟩

/-- The legacy `onResponse` chain emits only `respL` events. -/
lemma legacyOnResponseGo_trace : ∀ (l : List (Nat × LegacyApiPlugin))
    (ctx : ApiResponseContext),
    ∃ idxs : List Nat, (legacyOnResponseGo l ctx).2 = idxs.map Ev.respL
  | [], ctx => ⟨[], by simp [legacyOnResponseGo]⟩
  | (i, p) :: ps, ctx => by
    simp only [legacyOnResponseGo]
    cases hp : p.onResponse with
    | none => exact legacyOnResponseGo_trace ps ctx
    | some f =>
      obtain ⟨idxs, hidxs⟩ := legacyOnResponseGo_trace ps (f ctx)
      exact ⟨i :: idxs, by simp [hidxs]⟩

/-- The legacy `onError` chain emits only `errL` events. -/
lemma legacyOnErrorGo_trace : ∀ (l : List (Nat × LegacyApiPlugin))
    (e : ApiError) (rc : ApiRequestContext),
    ∃ idxs : List Nat, (legacyOnErrorGo l e rc).2 = idxs.map Ev.errL
  | [], e, rc => ⟨[], by simp [legacyOnErrorGo]⟩
  | (i, p) :: ps, e, rc => by
    simp only [legacyOnErrorGo]
    cases hp : p.onError with
    | none => exact legacyOnErrorGo_trace ps e rc
    | some f =>
      obtain ⟨idxs, hidxs⟩ := legacyOnErrorGo_trace ps (f e rc) rc
      exact ⟨i :: idxs, by simp [hidxs]⟩

end TraceLemmas

section RequestPaths

/-- Path of `request` taken when a class-based plugin short-circuits: the
class `onResponse` chain runs over the short-circuit response and its data is
returned; the legacy chain and the transport are skipped. -/
lemma request_class_short_circuit (ps : List ApiPluginBase)
    (lps : List LegacyApiPlugin) (tr : ApiRequestContext → TransportResult)
    (ctx : ApiRequestContext) (sc : ApiResponseContext)
    (hreq : (executeClassPluginOnRequest ps ctx).1 = Sum.inr sc) :
    request ps lps tr ctx =
      (Sum.inr (executeClassPluginOnResponse ps sc).1.data,
       (executeClassPluginOnRequest ps ctx).2 ++ (executeClassPluginOnResponse ps sc).2) := by
  rcases hE : executeClassPluginOnRequest ps ctx with ⟨res, t1⟩
  rw [hE] at hreq
  simp only at hreq
  subst hreq
  unfold request
  rw [hE]

/-- Path of `request` taken when no class-based plugin short-circuits but a
legacy plugin sets the `__mockResponse` sentinel: the sentinel value is
returned immediately; no response phase runs and the transport is skipped. -/
lemma request_mock_short_circuit (ps : List ApiPluginBase)
    (lps : List LegacyApiPlugin) (tr : ApiRequestContext → TransportResult)
    (ctx c : ApiRequestContext) (d : Nat)
    (hreq : (executeClassPluginOnRequest ps ctx).1 = Sum.inl c)
    (hmock : (executeLegacyOnRequest lps { ctx := c, mockResponse := none }).1.mockResponse
      = some d) :
    request ps lps tr ctx =
      (Sum.inr d,
       (executeClassPluginOnRequest ps ctx).2
         ++ (executeLegacyOnRequest lps { ctx := c, mockResponse := none }).2) := by
  rcases hE : executeClassPluginOnRequest ps ctx with ⟨res, t1⟩
  rw [hE] at hreq
  simp only at hreq
  subst hreq
  rcases hL : executeLegacyOnRequest lps { ctx := c, mockResponse := none } with ⟨lc, t2⟩
  rw [hL] at hmock
  simp only at hmock
  unfold request
  rw [hE]
  dsimp only
  rw [hL]
  simp only [hmock]

/-- Path of `request` on a successful transport call: class `onRequest`
chain, legacy `onRequest` chain, transport, legacy `onResponse` chain, class
`onResponse` chain, final data returned. -/
lemma request_transport_success (ps : List ApiPluginBase)
    (lps : List LegacyApiPlugin) (tr : ApiRequestContext → TransportResult)
    (ctx c : ApiRequestContext) (resp : ApiResponseContext)
    (hreq : (executeClassPluginOnRequest ps ctx).1 = Sum.inl c)
    (hleg : (executeLegacyOnRequest lps { ctx := c, mockResponse := none }).1.mockResponse
      = none)
    (htr : tr (executeLegacyOnRequest lps { ctx := c, mockResponse := none }).1.ctx
      = TransportResult.ok resp) :
    request ps lps tr ctx =
      (Sum.inr (executeClassPluginOnResponse ps (executeLegacyOnResponse lps resp).1).1.data,
       (executeClassPluginOnRequest ps ctx).2
         ++ (executeLegacyOnRequest lps { ctx := c, mockResponse := none }).2
         ++ [Ev.transport] ++ (executeLegacyOnResponse lps resp).2
         ++ (executeClassPluginOnResponse ps (executeLegacyOnResponse lps resp).1).2) := by
  rcases hE : executeClassPluginOnRequest ps ctx with ⟨res, t1⟩
  rw [hE] at hreq
  simp only at hreq
  subst hreq
  rcases hL : executeLegacyOnRequest lps { ctx := c, mockResponse := none } with ⟨lc, t2⟩
  rw [hL] at hleg htr
  simp only at hleg htr
  unfold request
  rw [hE]
  dsimp only
  rw [hL]
  simp only [hleg, htr]

/-- Path of `request` on a failed transport call when the class `onError`
chain recovers with a response context: the caller receives that response's
data. -/
lemma request_transport_error_recovered (ps : List ApiPluginBase)
    (lps : List LegacyApiPlugin) (tr : ApiRequestContext → TransportResult)
    (ctx c : ApiRequestContext) (e0 : ApiError) (r : ApiResponseContext)
    (hreq : (executeClassPluginOnRequest ps ctx).1 = Sum.inl c)
    (hleg : (executeLegacyOnRequest lps { ctx := c, mockResponse := none }).1.mockResponse
      = none)
    (htr : tr (executeLegacyOnRequest lps { ctx := c, mockResponse := none }).1.ctx
      = TransportResult.err e0)
    (herr : (executeClassPluginOnError ps (executeLegacyOnError lps e0 ctx).1 ctx).1
      = Sum.inr r) :
    request ps lps tr ctx =
      (Sum.inr r.data,
       (executeClassPluginOnRequest ps ctx).2
         ++ (executeLegacyOnRequest lps { ctx := c, mockResponse := none }).2
         ++ [Ev.transport] ++ (executeLegacyOnError lps e0 ctx).2
         ++ (executeClassPluginOnError ps (executeLegacyOnError lps e0 ctx).1 ctx).2) := by
  rcases hE : executeClassPluginOnRequest ps ctx with ⟨res, t1⟩
  rw [hE] at hreq
  simp only at hreq
  subst hreq
  rcases hL : executeLegacyOnRequest lps { ctx := c, mockResponse := none } with ⟨lc, t2⟩
  rw [hL] at hleg htr
  simp only at hleg htr
  rcases hErr : executeClassPluginOnError ps (executeLegacyOnError lps e0 ctx).1 ctx
    with ⟨er, t4⟩
  rw [hErr] at herr
  simp only at herr
  subst herr
  unfold request
  rw [hE]
  dsimp only
  rw [hL]
  simp only [hleg, htr]
  rw [hErr]

/-- Path of `request` on a failed transport call when no plugin recovers: the
final transformed error is raised to the caller. -/
lemma request_transport_error_unrecovered (ps : List ApiPluginBase)
    (lps : List LegacyApiPlugin) (tr : ApiRequestContext → TransportResult)
    (ctx c : ApiRequestContext) (e0 e1 : ApiError)
    (hreq : (executeClassPluginOnRequest ps ctx).1 = Sum.inl c)
    (hleg : (executeLegacyOnRequest lps { ctx := c, mockResponse := none }).1.mockResponse
      = none)
    (htr : tr (executeLegacyOnRequest lps { ctx := c, mockResponse := none }).1.ctx
      = TransportResult.err e0)
    (herr : (executeClassPluginOnError ps (executeLegacyOnError lps e0 ctx).1 ctx).1
      = Sum.inl e1) :
    request ps lps tr ctx =
      (Sum.inl e1,
       (executeClassPluginOnRequest ps ctx).2
         ++ (executeLegacyOnRequest lps { ctx := c, mockResponse := none }).2
         ++ [Ev.transport] ++ (executeLegacyOnError lps e0 ctx).2
         ++ (executeClassPluginOnError ps (executeLegacyOnError lps e0 ctx).1 ctx).2) := by
  rcases hE : executeClassPluginOnRequest ps ctx with ⟨res, t1⟩
  rw [hE] at hreq
  simp only at hreq
  subst hreq
  rcases hL : executeLegacyOnRequest lps { ctx := c, mockResponse := none } with ⟨lc, t2⟩
  rw [hL] at hleg htr
  simp only at hleg htr
  rcases hErr : executeClassPluginOnError ps (executeLegacyOnError lps e0 ctx).1 ctx
    with ⟨er, t4⟩
  rw [hErr] at herr
  simp only at herr
  subst herr
  unfold request
  rw [hE]
  dsimp only
  rw [hL]
  simp only [hleg, htr]
  rw [hErr]

end RequestPaths

/-- C1: For every sequence of N class-based request-phase plugins in which no
plugin short-circuits (and the legacy chain does not short-circuit either)
and whose transport call succeeds, executing a request invokes each plugin's
`onRequest` hook exactly once in merged FIFO registration order, and then
invokes each plugin's `onResponse` hook exactly once in exactly the reverse
of that order: the class-based hook events of the trace are precisely the
`onRequest` positions in increasing order followed by the `onResponse`
positions in decreasing order, and each position list is duplicate-free. -/
theorem c1_request_fifo_response_lifo (ps : List ApiPluginBase)
    (lps : List LegacyApiPlugin) (tr : ApiRequestContext → TransportResult)
    (ctx c : ApiRequestContext) (resp : ApiResponseContext)
    (hreq : (executeClassPluginOnRequest ps ctx).1 = Sum.inl c)
    (hleg : (executeLegacyOnRequest lps { ctx := c, mockResponse := none }).1.mockResponse
      = none)
    (htr : tr (executeLegacyOnRequest lps { ctx := c, mockResponse := none }).1.ctx
      = TransportResult.ok resp) :
    ((request ps lps tr ctx).2).filter isClassRR
      = (reqHookIdx (withIdx ps)).map Ev.reqC
        ++ ((respHookIdx (withIdx ps)).reverse).map Ev.respC
    ∧ (reqHookIdx (withIdx ps)).Nodup ∧ (respHookIdx (withIdx ps)).Nodup := by
  refine ⟨?_, reqHookIdx_nodup ps, respHookIdx_nodup ps⟩
  rw [request_transport_success ps lps tr ctx c resp hreq hleg htr]
  have ht1 : (executeClassPluginOnRequest ps ctx).2
      = (reqHookIdx (withIdx ps)).map Ev.reqC :=
    classOnRequestGo_inl_trace (withIdx ps) ctx c hreq
  obtain ⟨lidx, hl2⟩ :=
    legacyOnRequestGo_trace (withIdx lps) { ctx := c, mockResponse := none }
  obtain ⟨ridx, hr2⟩ := legacyOnResponseGo_trace (withIdx lps).reverse resp
  have ht4 : (executeClassPluginOnResponse ps (executeLegacyOnResponse lps resp).1).2
      = (respHookIdx ((withIdx ps).reverse)).map Ev.respC :=
    classOnResponseGo_trace ((withIdx ps).reverse) (executeLegacyOnResponse lps resp).1
  show ((executeClassPluginOnRequest ps ctx).2
      ++ (executeLegacyOnRequest lps { ctx := c, mockResponse := none }).2
      ++ [Ev.transport] ++ (executeLegacyOnResponse lps resp).2
      ++ (executeClassPluginOnResponse ps (executeLegacyOnResponse lps resp).1).2).filter
        isClassRR
    = (reqHookIdx (withIdx ps)).map Ev.reqC
      ++ ((respHookIdx (withIdx ps)).reverse).map Ev.respC
  rw [ht1, ht4]
  have hl2a : (executeLegacyOnRequest lps { ctx := c, mockResponse := none }).2
      = lidx.map Ev.reqL := hl2
  have hr2a : (executeLegacyOnResponse lps resp).2 = ridx.map Ev.respL := hr2
  rw [hl2a, hr2a]
  simp only [List.filter_append,
    filter_map_ev_self isClassRR Ev.reqC (fun i => rfl),
    filter_map_ev_nil isClassRR Ev.reqL (fun i => rfl),
    filter_map_ev_nil isClassRR Ev.respL (fun i => rfl),
    filter_map_ev_self isClassRR Ev.respC (fun i => rfl)]
  rw [respHookIdx_reverse]
  simp [isClassRR, isReqC, isRespC]

/-- C1 witness: the property instantiated on three concrete class plugins
(the middle one hookless), one legacy observer, and a succeeding transport. -/
theorem c1_request_fifo_response_lifo_witness :
    ((request [samplePluginA, sampleNoHookPlugin, samplePluginB] [sampleLegacyPlugin]
        sampleTransportOk sampleCtx).2).filter isClassRR
      = (reqHookIdx (withIdx [samplePluginA, sampleNoHookPlugin, samplePluginB])).map Ev.reqC
        ++ ((respHookIdx (withIdx [samplePluginA, sampleNoHookPlugin,
              samplePluginB])).reverse).map Ev.respC
    ∧ (reqHookIdx (withIdx [samplePluginA, sampleNoHookPlugin, samplePluginB])).Nodup
    ∧ (respHookIdx (withIdx [samplePluginA, sampleNoHookPlugin, samplePluginB])).Nodup :=
  c1_request_fifo_response_lifo [samplePluginA, sampleNoHookPlugin, samplePluginB]
    [sampleLegacyPlugin] sampleTransportOk sampleCtx sampleCtx sampleResp rfl rfl rfl

/-- C2: If the plugin at 0-based position `pre.length` of the merged
class-based list (1-indexed position k = `pre.length + 1`) returns a
`ShortCircuitResult` from `onRequest` while the plugins before it pass the
context through, then the `onRequest` events of the trace are exactly the
hook positions of the prefix followed by the short-circuiting plugin's
position (so no later plugin's `onRequest` ever runs), the transport is never
invoked, the `onResponse` phase still runs over the full merged list in
reverse order, and the caller receives the data of the response produced by
that response phase. -/
theorem c2_short_circuit_stops_chain (pre post : List ApiPluginBase)
    (pk : ApiPluginBase) (lps : List LegacyApiPlugin)
    (tr : ApiRequestContext → TransportResult) (ctx c : ApiRequestContext)
    (f : ApiRequestContext → ApiRequestContext ⊕ ApiResponseContext)
    (sc : ApiResponseContext)
    (hpre : (executeClassPluginOnRequest pre ctx).1 = Sum.inl c)
    (hk : pk.onRequest = some f)
    (hf : f c = Sum.inr sc) :
    ((request (pre ++ pk :: post) lps tr ctx).2).filter isReqC
      = ((reqHookIdx (withIdx pre)).map Ev.reqC) ++ [Ev.reqC pre.length]
    ∧ Ev.transport ∉ (request (pre ++ pk :: post) lps tr ctx).2
    ∧ ((request (pre ++ pk :: post) lps tr ctx).2).filter isRespC
      = ((respHookIdx (withIdx (pre ++ pk :: post))).reverse).map Ev.respC
    ∧ (request (pre ++ pk :: post) lps tr ctx).1
      = Sum.inr (executeClassPluginOnResponse (pre ++ pk :: post) sc).1.data := by
  have hidx : withIdx (pre ++ pk :: post)
      = withIdx pre ++ (pre.length, pk) :: withIdxFrom (pre.length + 1) post := by
    show withIdxFrom 0 (pre ++ pk :: post) = _
    rw [withIdxFrom_append pre (pk :: post) 0]
    simp [withIdx, withIdxFrom]
  have hcons : classOnRequestGo ((pre.length, pk) :: withIdxFrom (pre.length + 1) post) c
      = (Sum.inr sc, [Ev.reqC pre.length]) := by
    simp only [classOnRequestGo, hk, hf]
  have hE : executeClassPluginOnRequest (pre ++ pk :: post) ctx
      = (Sum.inr sc, (classOnRequestGo (withIdx pre) ctx).2 ++ [Ev.reqC pre.length]) := by
    show classOnRequestGo (withIdx (pre ++ pk :: post)) ctx = _
    rw [hidx, classOnRequestGo_append (withIdx pre)
      ((pre.length, pk) :: withIdxFrom (pre.length + 1) post) ctx c hpre, hcons]
  have hreq2 : (executeClassPluginOnRequest (pre ++ pk :: post) ctx).1 = Sum.inr sc := by
    rw [hE]
  have hpath := request_class_short_circuit (pre ++ pk :: post) lps tr ctx sc hreq2
  have hpretr : (classOnRequestGo (withIdx pre) ctx).2
      = (reqHookIdx (withIdx pre)).map Ev.reqC :=
    classOnRequestGo_inl_trace (withIdx pre) ctx c hpre
  have ht4 : (executeClassPluginOnResponse (pre ++ pk :: post) sc).2
      = (respHookIdx ((withIdx (pre ++ pk :: post)).reverse)).map Ev.respC :=
    classOnResponseGo_trace ((withIdx (pre ++ pk :: post)).reverse) sc
  refine ⟨?_, ?_, ?_, ?_⟩
  · rw [hpath]
    show ((executeClassPluginOnRequest (pre ++ pk :: post) ctx).2
        ++ (executeClassPluginOnResponse (pre ++ pk :: post) sc).2).filter isReqC = _
    rw [hE, ht4, hpretr]
    simp only [List.filter_append,
      filter_map_ev_self isReqC Ev.reqC (fun i => rfl),
      filter_map_ev_nil isReqC Ev.respC (fun i => rfl)]
    simp [isReqC]
  · rw [hpath]
    show Ev.transport ∉ (executeClassPluginOnRequest (pre ++ pk :: post) ctx).2
        ++ (executeClassPluginOnResponse (pre ++ pk :: post) sc).2
    rw [hE, ht4, hpretr]
    simp
  · rw [hpath]
    show ((executeClassPluginOnRequest (pre ++ pk :: post) ctx).2
        ++ (executeClassPluginOnResponse (pre ++ pk :: post) sc).2).filter isRespC = _
    rw [hE, ht4, hpretr]
    rw [respHookIdx_reverse]
    simp only [List.filter_append,
      filter_map_ev_nil isRespC Ev.reqC (fun i => rfl),
      filter_map_ev_self isRespC Ev.respC (fun i => rfl)]
    simp [isRespC]
  · rw [hpath]

/-- C2 witness: plugin at 1-indexed position 2 of three short-circuits; the
first plugin's hook runs, the third's never does, the transport is skipped,
the response phase covers all three positions in reverse, and the caller
gets the response-phase output over the canned short-circuit response. -/
theorem c2_short_circuit_stops_chain_witness :
    ((request ([samplePluginA] ++ sampleShortCircuitPlugin :: [samplePluginB])
        [sampleLegacyPlugin] sampleTransportOk sampleCtx).2).filter isReqC
      = ((reqHookIdx (withIdx [samplePluginA])).map Ev.reqC) ++ [Ev.reqC 1]
    ∧ Ev.transport ∉ (request ([samplePluginA] ++ sampleShortCircuitPlugin :: [samplePluginB])
        [sampleLegacyPlugin] sampleTransportOk sampleCtx).2
    ∧ ((request ([samplePluginA] ++ sampleShortCircuitPlugin :: [samplePluginB])
        [sampleLegacyPlugin] sampleTransportOk sampleCtx).2).filter isRespC
      = ((respHookIdx (withIdx ([samplePluginA] ++ sampleShortCircuitPlugin
          :: [samplePluginB]))).reverse).map Ev.respC
    ∧ (request ([samplePluginA] ++ sampleShortCircuitPlugin :: [samplePluginB])
        [sampleLegacyPlugin] sampleTransportOk sampleCtx).1
      = Sum.inr (executeClassPluginOnResponse
          ([samplePluginA] ++ sampleShortCircuitPlugin :: [samplePluginB])
          { status := 200, headers := [], data := 42 }).1.data :=
  c2_short_circuit_stops_chain [samplePluginA] [samplePluginB]
    sampleShortCircuitPlugin [sampleLegacyPlugin] sampleTransportOk sampleCtx sampleCtx
    (fun _ => Sum.inr { status := 200, headers := [], data := 42 })
    { status := 200, headers := [], data := 42 } rfl rfl rfl

/-- Filtering the error-path trace for class `onError` events discards the
request-phase, legacy and transport events. -/
lemma filter_isErrC_trace (A lidx eidx : List Nat) (t4 : List Ev) :
    (A.map Ev.reqC ++ lidx.map Ev.reqL ++ [Ev.transport] ++ eidx.map Ev.errL
      ++ t4).filter isErrC = t4.filter isErrC := by
  simp only [List.filter_append,
    filter_map_ev_nil isErrC Ev.reqC (fun i => rfl),
    filter_map_ev_nil isErrC Ev.reqL (fun i => rfl),
    filter_map_ev_nil isErrC Ev.errL (fun i => rfl)]
  simp [isErrC]

/-- C3: For every request whose transport call fails, the class-based error
phase runs in LIFO order through `onError`: (first conjunct) if, in the
reversed merged list, the plugins before position `j` transform the error
without recovering and the plugin at `j` returns a response context, the
chain stops at that plugin — the `onError` events are exactly the hook
positions of the reversed prefix followed by `j` — and the caller receives
that response's data; (second conjunct) if no plugin recovers, the `onError`
events cover the whole reversed list and the final transformed error is
raised to the caller. -/
theorem c3_error_phase_lifo (ps : List ApiPluginBase)
    (lps : List LegacyApiPlugin) (tr : ApiRequestContext → TransportResult)
    (ctx c : ApiRequestContext) (e0 : ApiError)
    (hreq : (executeClassPluginOnRequest ps ctx).1 = Sum.inl c)
    (hleg : (executeLegacyOnRequest lps { ctx := c, mockResponse := none }).1.mockResponse
      = none)
    (htr : tr (executeLegacyOnRequest lps { ctx := c, mockResponse := none }).1.ctx
      = TransportResult.err e0) :
    (∀ pre post j pj g e2 r,
      (withIdx ps).reverse = pre ++ (j, pj) :: post →
      (classOnErrorGo pre (executeLegacyOnError lps e0 ctx).1 ctx).1 = Sum.inl e2 →
      pj.onError = some g → g e2 ctx = Sum.inr r →
      (request ps lps tr ctx).1 = Sum.inr r.data
      ∧ ((request ps lps tr ctx).2).filter isErrC
          = (errHookIdx pre).map Ev.errC ++ [Ev.errC j])
    ∧ (∀ e3,
      (classOnErrorGo ((withIdx ps).reverse) (executeLegacyOnError lps e0 ctx).1 ctx).1
        = Sum.inl e3 →
      (request ps lps tr ctx).1 = Sum.inl e3
      ∧ ((request ps lps tr ctx).2).filter isErrC
          = (errHookIdx ((withIdx ps).reverse)).map Ev.errC) := by
  have ht1 : (executeClassPluginOnRequest ps ctx).2
      = (reqHookIdx (withIdx ps)).map Ev.reqC :=
    classOnRequestGo_inl_trace (withIdx ps) ctx c hreq
  obtain ⟨lidx, hl2⟩ :=
    legacyOnRequestGo_trace (withIdx lps) { ctx := c, mockResponse := none }
  have hl2a : (executeLegacyOnRequest lps { ctx := c, mockResponse := none }).2
      = lidx.map Ev.reqL := hl2
  obtain ⟨eidx, he3⟩ := legacyOnErrorGo_trace (withIdx lps).reverse e0 ctx
  have he3a : (executeLegacyOnError lps e0 ctx).2 = eidx.map Ev.errL := he3
  constructor
  · intro pre post j pj g e2 r hdec hpre hg hr
    have hcons : classOnErrorGo ((j, pj) :: post)
        e2 ctx = (Sum.inr r, [Ev.errC j]) := by
      simp only [classOnErrorGo, hg, hr]
    have hErr : executeClassPluginOnError ps (executeLegacyOnError lps e0 ctx).1 ctx
        = (Sum.inr r,
           (classOnErrorGo pre (executeLegacyOnError lps e0 ctx).1 ctx).2 ++ [Ev.errC j]) := by
      show classOnErrorGo ((withIdx ps).reverse) (executeLegacyOnError lps e0 ctx).1 ctx = _
      rw [hdec, classOnErrorGo_append pre ((j, pj) :: post)
        (executeLegacyOnError lps e0 ctx).1 ctx e2 hpre, hcons]
    have herr1 : (executeClassPluginOnError ps (executeLegacyOnError lps e0 ctx).1 ctx).1
        = Sum.inr r := by rw [hErr]
    have hpath := request_transport_error_recovered ps lps tr ctx c e0 r hreq hleg htr herr1
    have hpretr : (classOnErrorGo pre (executeLegacyOnError lps e0 ctx).1 ctx).2
        = (errHookIdx pre).map Ev.errC :=
      classOnErrorGo_inl_trace pre (executeLegacyOnError lps e0 ctx).1 ctx e2 hpre
    have ht4 : (executeClassPluginOnError ps (executeLegacyOnError lps e0 ctx).1 ctx).2
        = (errHookIdx pre).map Ev.errC ++ [Ev.errC j] := by
      rw [hErr, ← hpretr]
    constructor
    · rw [hpath]
    · rw [hpath, ht1, hl2a, he3a, ht4, filter_isErrC_trace]
      simp only [List.filter_append,
        filter_map_ev_self isErrC Ev.errC (fun i => rfl)]
      simp [isErrC]
  · intro e3 hnorec
    have herr1 : (executeClassPluginOnError ps (executeLegacyOnError lps e0 ctx).1 ctx).1
        = Sum.inl e3 := hnorec
    have hpath := request_transport_error_unrecovered ps lps tr ctx c e0 e3 hreq hleg htr herr1
    have ht4 : (executeClassPluginOnError ps (executeLegacyOnError lps e0 ctx).1 ctx).2
        = (errHookIdx ((withIdx ps).reverse)).map Ev.errC :=
      classOnErrorGo_inl_trace ((withIdx ps).reverse)
        (executeLegacyOnError lps e0 ctx).1 ctx e3 hnorec
    constructor
    · rw [hpath]
    · rw [hpath, ht1, hl2a, he3a, ht4, filter_isErrC_trace]
      exact filter_map_ev_self isErrC Ev.errC (fun i => rfl) _

/-- C3 witness: two plugins, failing transport; the outermost plugin of the
reversed order (position 1) recovers immediately, so the caller receives its
canned response data `77` and the only `onError` event is position 1. -/
theorem c3_error_phase_lifo_witness :
    (request [samplePluginA, sampleRecoveryPlugin] [sampleLegacyPlugin]
        sampleTransportErr sampleCtx).1
      = Sum.inr ({ status := 299, headers := [], data := 77 } : ApiResponseContext).data
    ∧ ((request [samplePluginA, sampleRecoveryPlugin] [sampleLegacyPlugin]
        sampleTransportErr sampleCtx).2).filter isErrC
      = (errHookIdx []).map Ev.errC ++ [Ev.errC 1] :=
  (c3_error_phase_lifo [samplePluginA, sampleRecoveryPlugin] [sampleLegacyPlugin]
      sampleTransportErr sampleCtx sampleCtx { message := "network" } rfl rfl rfl).1
    [] [(0, samplePluginA)] 1 sampleRecoveryPlugin
    (fun _ _ => Sum.inr { status := 299, headers := [], data := 77 })
    { message := "network" } { status := 299, headers := [], data := 77 }
    rfl rfl rfl rfl

/-- C4 counterexample: one class plugin whose `onResponse` adds 1, one legacy
plugin that short-circuits with `__mockResponse = 7`.  The claim predicts the
response phase runs over the short-circuited response (so the trace would
contain response events and the data would be transformed); the code returns
the raw sentinel value `7` and the trace contains no response event at all. -/
theorem c4_counterexample :
    (request [samplePluginA] [sampleLegacyMockPlugin] sampleTransportOk sampleCtx).1
      = Sum.inr 7
    ∧ ((request [samplePluginA] [sampleLegacyMockPlugin] sampleTransportOk
        sampleCtx).2).filter isRespAny = [] :=
  ⟨rfl, rfl⟩

/-- C4 amended: when a legacy-chain plugin short-circuits via the
`__mockResponse` sentinel, the transport is skipped and the sentinel's value
is returned directly to the caller; no response phase — neither the legacy
one nor the class-based one — runs over the short-circuited value. -/
theorem c4_mock_short_circuit_amended (ps : List ApiPluginBase)
    (lps : List LegacyApiPlugin) (tr : ApiRequestContext → TransportResult)
    (ctx c : ApiRequestContext) (d : Nat)
    (hreq : (executeClassPluginOnRequest ps ctx).1 = Sum.inl c)
    (hmock : (executeLegacyOnRequest lps { ctx := c, mockResponse := none }).1.mockResponse
      = some d) :
    (request ps lps tr ctx).1 = Sum.inr d
    ∧ Ev.transport ∉ (request ps lps tr ctx).2
    ∧ ((request ps lps tr ctx).2).filter isRespAny = [] := by
  have hpath := request_mock_short_circuit ps lps tr ctx c d hreq hmock
  have ht1 : (executeClassPluginOnRequest ps ctx).2
      = (reqHookIdx (withIdx ps)).map Ev.reqC :=
    classOnRequestGo_inl_trace (withIdx ps) ctx c hreq
  obtain ⟨lidx, hl2⟩ :=
    legacyOnRequestGo_trace (withIdx lps) { ctx := c, mockResponse := none }
  have hl2a : (executeLegacyOnRequest lps { ctx := c, mockResponse := none }).2
      = lidx.map Ev.reqL := hl2
  refine ⟨by rw [hpath], ?_, ?_⟩
  · rw [hpath]
    show Ev.transport ∉ (executeClassPluginOnRequest ps ctx).2
        ++ (executeLegacyOnRequest lps { ctx := c, mockResponse := none }).2
    rw [ht1, hl2a]
    simp
  · rw [hpath]
    show ((executeClassPluginOnRequest ps ctx).2
        ++ (executeLegacyOnRequest lps { ctx := c, mockResponse := none }).2).filter
          isRespAny = []
    rw [ht1, hl2a]
    simp only [List.filter_append,
      filter_map_ev_nil isRespAny Ev.reqC (fun i => rfl),
      filter_map_ev_nil isRespAny Ev.reqL (fun i => rfl), List.append_nil]

/-- C4 amended witness: the concrete scenario of the counterexample, settled
by the amended theorem. -/
theorem c4_mock_short_circuit_amended_witness :
    (request [samplePluginA] [sampleLegacyMockPlugin] sampleTransportOk sampleCtx).1
      = Sum.inr 7
    ∧ Ev.transport ∉ (request [samplePluginA] [sampleLegacyMockPlugin]
        sampleTransportOk sampleCtx).2
    ∧ ((request [samplePluginA] [sampleLegacyMockPlugin] sampleTransportOk
        sampleCtx).2).filter isRespAny = [] :=
  c4_mock_short_circuit_amended [samplePluginA] [sampleLegacyMockPlugin]
    sampleTransportOk sampleCtx sampleCtx 7 rfl rfl

/-- C5: `plugins.add` with a single plugin whose concrete type already has a
registered instance throws and leaves the list unchanged (object identity is
irrelevant: only the constructor token is compared); adding a plugin whose
concrete type is not yet present appends it and succeeds. -/
theorem c5_add_duplicate_type_rejected (l : List PluginInst) (p : PluginInst) :
    ((∃ q ∈ l, q.ctor = p.ctor) → pluginsAdd l [p] = (l, true))
    ∧ ((∀ q ∈ l, q.ctor ≠ p.ctor) → pluginsAdd l [p] = (l ++ [p], false)) := by
  constructor
  · rintro ⟨q, hq, hctor⟩
    have hany : l.any (fun q => q.ctor == p.ctor) = true :=
      List.any_eq_true.mpr ⟨q, hq, by simp [hctor]⟩
    simp [pluginsAdd, hany]
  · intro h
    have hany : l.any (fun q => q.ctor == p.ctor) = false := by
      rw [List.any_eq_false]
      intro q hq
      simp [h q hq]
    simp [pluginsAdd, hany]

/-- C5 witness: adding a second, distinct instance of an already-registered
class fails with the list unchanged; adding an instance of a fresh class
appends it. -/
theorem c5_add_duplicate_type_rejected_witness :
    pluginsAdd [regPluginA] [regPluginA2] = ([regPluginA], true)
    ∧ pluginsAdd [regPluginA] [regPluginB] = ([regPluginA] ++ [regPluginB], false) :=
  ⟨(c5_add_duplicate_type_rejected [regPluginA] regPluginA2).1 (by decide),
   (c5_add_duplicate_type_rejected [regPluginA] regPluginB).2 (by decide)⟩

/-- C6 counterexample: a registered instance whose concrete class (token 2)
is a subclass of the queried type (token 1) DOES match `has` and `getPlugin`
even though its concrete type differs from the queried type, because lookups
use `instanceof` — refuting the claim that only exact concrete types match. -/
theorem c6_counterexample :
    pluginsHas [regPluginSub] 1 = true
    ∧ pluginsGetPlugin [regPluginSub] 1 = some regPluginSub
    ∧ regPluginSub.ctor ≠ 1 := by decide

/-- C6 amended: lookups (`has`, `getPlugin`, `remove`, and the target search
of `addBefore`/`addAfter`) match a plugin exactly when the queried type is
the plugin's concrete class or one of its ancestors (JavaScript `instanceof`
semantics), so a subclass instance of the queried type does match; matching
never consults object identity (renaming instance identities leaves `has`
unchanged); duplicate rejection in `add`, `addBefore` and `addAfter`
compares exact constructor identity only: a plugin whose exact constructor
is already registered is rejected with the list unchanged, and absent such
an exact duplicate, `addBefore`/`addAfter` succeed precisely when some
registered plugin is an `instanceof` match for the target type. -/
theorem c6_lookup_matching_amended (l : List PluginInst) (cls : Nat)
    (p : PluginInst) (f : Nat → Nat) :
    (pluginsHas l cls = true ↔ ∃ q ∈ l, q.ctor = cls ∨ cls ∈ q.supers)
    ∧ ((pluginsGetPlugin l cls).isSome ↔ ∃ q ∈ l, q.ctor = cls ∨ cls ∈ q.supers)
    ∧ ((pluginsRemove l cls).2 = some RemoveErr.notFound ↔ pluginsHas l cls = false)
    ∧ ((pluginsAdd l [p]).2 = true ↔ ∃ q ∈ l, q.ctor = p.ctor)
    ∧ pluginsHas (l.map (fun q => { q with instId := f q.instId })) cls
        = pluginsHas l cls
    ∧ ((∃ q ∈ l, q.ctor = p.ctor) →
        pluginsAddBefore l p cls = (l, true) ∧ pluginsAddAfter l p cls = (l, true))
    ∧ ((∀ q ∈ l, q.ctor ≠ p.ctor) →
        (((pluginsAddBefore l p cls).2 = false ↔ ∃ q ∈ l, q.ctor = cls ∨ cls ∈ q.supers)
         ∧ ((pluginsAddAfter l p cls).2 = false ↔ ∃ q ∈ l, q.ctor = cls ∨ cls ∈ q.supers))) := by
  refine ⟨?_, ?_, ?_, ?_, ?_, ?_, ?_⟩
  · simp [pluginsHas, List.any_eq_true, instanceOfClass]
  · simp [pluginsGetPlugin, List.find?_isSome, instanceOfClass]
  · cases hidx : l.findIdx? (fun q => instanceOfClass q cls) with
    | none =>
      have hall := List.findIdx?_eq_none_iff.mp hidx
      have hhas : pluginsHas l cls = false :=
        List.any_eq_false.mpr (by intro q hq; simp [hall q hq])
      simp [pluginsRemove, hidx, hhas]
    | some i =>
      have hhas : pluginsHas l cls = true := by
        by_contra hfalse
        have hfalse2 : pluginsHas l cls = false := by
          cases hb : pluginsHas l cls
          · rfl
          · exact absurd hb hfalse
        have hall : ∀ q ∈ l, instanceOfClass q cls = false := by
          intro q hq
          have := List.any_eq_false.mp hfalse2 q hq
          cases hb : instanceOfClass q cls
          · rfl
          · exact absurd hb this
        rw [List.findIdx?_eq_none_iff.mpr hall] at hidx
        cases hidx
      rw [hhas]
      cases hget : l[i]? with
      | none => simp [pluginsRemove, hidx, hget]
      | some q =>
        by_cases hd : q.hasDestroy && q.destroyThrows
        · simp [pluginsRemove, hidx, hget, hd]
        · simp [pluginsRemove, hidx, hget, hd]
  · by_cases hc : l.any (fun q => q.ctor == p.ctor)
    · obtain ⟨q, hq, hbeq⟩ := List.any_eq_true.mp hc
      rw [show pluginsAdd l [p] = (l, true) from by simp [pluginsAdd, hc]]
      exact iff_of_true rfl ⟨q, hq, by simpa using hbeq⟩
    · have hc2 : l.any (fun q => q.ctor == p.ctor) = false := Bool.eq_false_iff.mpr hc
      rw [show pluginsAdd l [p] = (l ++ [p], false) from by simp [pluginsAdd, hc2]]
      refine iff_of_false (by simp) ?_
      rintro ⟨q, hq, he⟩
      have hfalse := List.any_eq_false.mp hc2 q hq
      simp [he] at hfalse
  · show (l.map (fun q => { q with instId := f q.instId })).any
        (fun q => instanceOfClass q cls) = l.any (fun q => instanceOfClass q cls)
    rw [List.any_map]
    rfl
  · rintro ⟨q, hq, hctor⟩
    have hany : l.any (fun q2 => q2.ctor == p.ctor) = true :=
      List.any_eq_true.mpr ⟨q, hq, by simp [hctor]⟩
    exact ⟨by simp [pluginsAddBefore, hany], by simp [pluginsAddAfter, hany]⟩
  · intro hno
    have hdup2 : l.any (fun q2 => q2.ctor == p.ctor) = false := by
      rw [List.any_eq_false]
      intro q hq
      simp [hno q hq]
    cases hidx : l.findIdx? (fun q2 => instanceOfClass q2 cls) with
    | none =>
      have hall := List.findIdx?_eq_none_iff.mp hidx
      have hnex : ¬ ∃ q ∈ l, q.ctor = cls ∨ cls ∈ q.supers := by
        rintro ⟨q, hq, hm⟩
        have hfq := hall q hq
        simp [instanceOfClass] at hfq
        rcases hm with h | h
        · exact absurd h hfq.1
        · exact absurd h hfq.2
      constructor
      · exact iff_of_false (by simp [pluginsAddBefore, hdup2, hidx]) hnex
      · exact iff_of_false (by simp [pluginsAddAfter, hdup2, hidx]) hnex
    | some i =>
      have hex : ∃ q ∈ l, q.ctor = cls ∨ cls ∈ q.supers := by
        by_contra hnex
        have hall : ∀ q ∈ l, instanceOfClass q cls = false := by
          intro q hq
          cases hb : instanceOfClass q cls
          · rfl
          · exfalso
            apply hnex
            have hb2 := hb
            simp [instanceOfClass] at hb2
            exact ⟨q, hq, hb2⟩
        rw [List.findIdx?_eq_none_iff.mpr hall] at hidx
        cases hidx
      constructor
      · exact iff_of_true (by simp [pluginsAddBefore, hdup2, hidx]) hex
      · exact iff_of_true (by simp [pluginsAddAfter, hdup2, hidx]) hex

/-- C6 amended witness: `addBefore`/`addAfter` reject a second, distinct
instance of the already-registered class token 0 with the list unchanged
(exact-constructor duplicate check); with no exact duplicate, inserting
relative to target type 1 succeeds when the only registered plugin is an
instance of a subclass of type 1 (`instanceof` target search). -/
theorem c6_lookup_matching_amended_witness :
    (pluginsAddBefore [regPluginA] regPluginA2 0 = ([regPluginA], true)
     ∧ pluginsAddAfter [regPluginA] regPluginA2 0 = ([regPluginA], true))
    ∧ (pluginsAddBefore [regPluginSub] regPluginB 1).2 = false
    ∧ (pluginsAddAfter [regPluginSub] regPluginB 1).2 = false :=
  ⟨(c6_lookup_matching_amended [regPluginA] 0 regPluginA2 id).2.2.2.2.2.1 (by decide),
   ((c6_lookup_matching_amended [regPluginSub] 1 regPluginB id).2.2.2.2.2.2
     (by decide)).1.mpr (by decide),
   ((c6_lookup_matching_amended [regPluginSub] 1 regPluginB id).2.2.2.2.2.2
     (by decide)).2.mpr (by decide)⟩

/-- C7: `addBefore(p, T)` and `addAfter(p, T)` against a target type `T` with
no registered instance (nothing in the list is an `instanceof` match for `T`)
throw and leave the plugin list exactly as it was. -/
theorem c7_add_before_after_missing_target (l : List PluginInst)
    (p : PluginInst) (T : Nat)
    (habs : ∀ q ∈ l, instanceOfClass q T = false) :
    pluginsAddBefore l p T = (l, true) ∧ pluginsAddAfter l p T = (l, true) := by
  have hidx : l.findIdx? (fun q => instanceOfClass q T) = none :=
    List.findIdx?_eq_none_iff.mpr habs
  by_cases hdup : l.any (fun q => q.ctor == p.ctor)
  · constructor
    · simp [pluginsAddBefore, hdup]
    · simp [pluginsAddAfter, hdup]
  · have hdup2 : l.any (fun q => q.ctor == p.ctor) = false := Bool.eq_false_iff.mpr hdup
    constructor
    · simp [pluginsAddBefore, hdup2, hidx]
    · simp [pluginsAddAfter, hdup2, hidx]

/-- C7 witness: inserting relative to unregistered class token 9 fails and
leaves the one-element list untouched, in both directions. -/
theorem c7_add_before_after_missing_target_witness :
    pluginsAddBefore [regPluginA] regPluginB 9 = ([regPluginA], true)
    ∧ pluginsAddAfter [regPluginA] regPluginB 9 = ([regPluginA], true) :=
  c7_add_before_after_missing_target [regPluginA] regPluginB 9 (by decide)

/-- C9 counterexample: removing the only registered plugin, whose `destroy()`
throws, leaves the plugin registered (the list is unchanged) and propagates
the error — refuting the claim that the plugin is nevertheless removed. -/
theorem c9_counterexample :
    pluginsRemove [regPluginThrows] 3
      = ([regPluginThrows], some RemoveErr.destroyFailed)
    ∧ regPluginThrows ∈ (pluginsRemove [regPluginThrows] 3).1 := by decide

/-- C9 amended: when the located plugin's `destroy()` throws, the exception
propagates before the splice, so `remove` leaves the registration list
unchanged and raises the error — a throwing `destroy()` DOES prevent
removal. -/
theorem c9_throwing_destroy_prevents_removal (l : List PluginInst) (cls : Nat)
    (i : Nat) (p : PluginInst)
    (hidx : l.findIdx? (fun q => instanceOfClass q cls) = some i)
    (hget : l[i]? = some p)
    (hd : p.hasDestroy = true) (ht : p.destroyThrows = true) :
    pluginsRemove l cls = (l, some RemoveErr.destroyFailed) := by
  simp [pluginsRemove, hidx, hget, hd, ht]

/-- C9 amended witness: the concrete one-plugin scenario. -/
theorem c9_throwing_destroy_prevents_removal_witness :
    pluginsRemove [regPluginThrows] 3 = ([regPluginThrows], some RemoveErr.destroyFailed) :=
  c9_throwing_destroy_prevents_removal [regPluginThrows] 3 0 regPluginThrows
    (by decide) (by decide) (by decide) (by decide)

/-- A successful prefix of `plugins.add` persists: if adding `xs` to `l`
succeeds producing `m`, then adding `xs ++ ys` first reaches state `m` and
continues with `ys`. -/
lemma pluginsAdd_append : ∀ (xs : List PluginInst) (l m ys : List PluginInst),
    pluginsAdd l xs = (m, false) →
    pluginsAdd l (xs ++ ys) = pluginsAdd m ys
  | [], l, m, ys, h => by
    simp only [pluginsAdd] at h
    cases h
    simp [pluginsAdd]
  | p :: xs, l, m, ys, h => by
    by_cases hc : l.any (fun q => q.ctor == p.ctor)
    · simp only [pluginsAdd, hc, if_true] at h
      cases h
    · simp only [pluginsAdd, hc, if_false, List.cons_append] at h ⊢
      exact pluginsAdd_append xs (l ++ [p]) m ys h

/-- C10: when `plugins.add` is called with arguments `pre ++ d :: rest` and
the arguments in `pre` all register successfully while `d`'s constructor
duplicates a type already present in the list-so-far, the call throws, yet
every argument processed before the duplicate has been appended and remains
registered: the resulting global list is exactly `l ++ pre` — the
multi-plugin `add` is not atomic. -/
theorem c10_multi_add_not_atomic (l pre rest : List PluginInst) (d : PluginInst)
    (hok : pluginsAdd l pre = (l ++ pre, false))
    (hdup : ∃ q ∈ l ++ pre, q.ctor = d.ctor) :
    pluginsAdd l (pre ++ d :: rest) = (l ++ pre, true) := by
  rw [pluginsAdd_append pre l (l ++ pre) (d :: rest) hok]
  obtain ⟨q, hq, hctor⟩ := hdup
  have hany : (l ++ pre).any (fun q => q.ctor == d.ctor) = true :=
    List.any_eq_true.mpr ⟨q, hq, by simp [hctor]⟩
  simp [pluginsAdd, hany]

/-- C10 witness: `add(B, A2, C)` on a list already holding class 0 (`A`):
`B` registers, `A2` trips the duplicate check, the call throws, and the
resulting list is `[A, B]` — `B` survives, `C` is never processed. -/
theorem c10_multi_add_not_atomic_witness :
    pluginsAdd [regPluginA] ([regPluginB] ++ regPluginA2 :: [regPluginC])
      = ([regPluginA] ++ [regPluginB], true) :=
  c10_multi_add_not_atomic [regPluginA] [regPluginB] [regPluginC] regPluginA2
    (by decide) (by decide)

/-- Reachability invariant of the `MockEventSource` machine: whenever
`readyState` is CLOSED, either the abort flag is set (a `close()` happened)
or the emitting coroutine has already returned (natural completion). -/
lemma mesQ_step (n : Nat) (s : MesState) (a : MesAct)
    (hq : s.readyState = 2 → s.aborted = true ∨ s.phase = EmitPhase.done) :
    (mesStep n s a).readyState = 2 →
      (mesStep n s a).aborted = true ∨ (mesStep n s a).phase = EmitPhase.done := by
  cases a with
  | close =>
    simp only [mesStep, mesClose]
    by_cases h2 : s.readyState = 2
    · rw [if_pos h2]
      exact hq
    · rw [if_neg h2]
      intro _
      exact Or.inl rfl
  | tick =>
    simp only [mesStep, mesTick]
    cases hp : s.phase with
    | done =>
      simp only [hp]
      intro h2
      exact Or.inr trivial
    | running i =>
      simp only [hp]
      by_cases hin : i < n
      · by_cases hab : s.aborted
        · rw [if_pos hin, if_pos hab]
          intro _
          exact Or.inr rfl
        · rw [if_pos hin, if_neg hab]
          intro h2
          rcases hq h2 with h | h
          · exact Or.inl h
          · rw [hp] at h
            exact absurd h (by simp)
      · rw [if_neg hin]
        intro _
        exact Or.inr rfl
    | sleeping i =>
      simp only [hp]
      by_cases hab : s.aborted
      · rw [if_pos hab]
        intro _
        exact Or.inr rfl
      · rw [if_neg hab]
        intro h2
        rcases hq h2 with h | h
        · exact Or.inl h
        · rw [hp] at h
          exact absurd h (by simp)

/-- The reachability invariant holds along any run. -/
lemma mesQ_run (n : Nat) (acts : List MesAct) : ∀ (s : MesState),
    (s.readyState = 2 → s.aborted = true ∨ s.phase = EmitPhase.done) →
    ((mesRun n s acts).readyState = 2 →
      (mesRun n s acts).aborted = true ∨ (mesRun n s acts).phase = EmitPhase.done) := by
  induction acts with
  | nil => intro s hq; exact hq
  | cons a as ih =>
    intro s hq
    exact ih (mesStep n s a) (mesQ_step n s a hq)

/-- Once CLOSED-with-reason (aborted or naturally finished), every step keeps
the state CLOSED, keeps the reason, and emits nothing. -/
lemma mesP_step (n : Nat) (s : MesState) (a : MesAct)
    (hrs : s.readyState = 2)
    (hd : s.aborted = true ∨ s.phase = EmitPhase.done) :
    (mesStep n s a).readyState = 2
    ∧ ((mesStep n s a).aborted = true ∨ (mesStep n s a).phase = EmitPhase.done)
    ∧ (mesStep n s a).emitted = s.emitted := by
  cases a with
  | close =>
    simp only [mesStep, mesClose]
    rw [if_pos hrs]
    exact ⟨hrs, hd, rfl⟩
  | tick =>
    simp only [mesStep, mesTick]
    cases hp : s.phase with
    | done =>
      simp only [hp]
      exact ⟨hrs, Or.inr trivial, trivial⟩
    | running i =>
      have hab : s.aborted = true := by
        rcases hd with h | h
        · exact h
        · rw [hp] at h
          exact absurd h (by simp)
      simp only [hp]
      by_cases hin : i < n
      · rw [if_pos hin, if_pos hab]
        exact ⟨hrs, Or.inr rfl, rfl⟩
      · rw [if_neg hin]
        exact ⟨rfl, Or.inr rfl, rfl⟩
    | sleeping i =>
      have hab : s.aborted = true := by
        rcases hd with h | h
        · exact h
        · rw [hp] at h
          exact absurd h (by simp)
      simp only [hp]
      rw [if_pos hab]
      exact ⟨hrs, Or.inr rfl, rfl⟩

/-- Once CLOSED-with-reason, any further run keeps the state CLOSED and emits
nothing. -/
lemma mesP_run (n : Nat) (acts : List MesAct) : ∀ (s : MesState),
    s.readyState = 2 →
    (s.aborted = true ∨ s.phase = EmitPhase.done) →
    (mesRun n s acts).readyState = 2 ∧ (mesRun n s acts).emitted = s.emitted := by
  induction acts with
  | nil => intro s hrs _; exact ⟨hrs, rfl⟩
  | cons a as ih =>
    intro s hrs hd
    obtain ⟨h1, h2, h3⟩ := mesP_step n s a hrs hd
    have hrec := ih (mesStep n s a) h1 h2
    have hrw : mesRun n s (a :: as) = mesRun n (mesStep n s a) as := rfl
    rw [hrw, hrec.2, h3]
    exact ⟨hrec.1, rfl⟩

/-- C8: For every `MockEventSource` over a finite event sequence of length
`n`, once `close()` has been called — after any interleaving `acts1` of
coroutine steps and earlier `close()` calls, including the case where the
coroutine is suspended in a delay whose timer is already scheduled — no
further event is delivered to `onmessage` or to any registered listener
under any continuation `acts2` (the emitted-event list never grows), and the
`readyState` is CLOSED (2) and remains CLOSED forever after. -/
theorem c8_close_stops_emission_and_stays_closed (n : Nat)
    (acts1 acts2 : List MesAct) :
    (mesRun n (mesRun n mesInit (acts1 ++ [MesAct.close])) acts2).readyState = 2
    ∧ (mesRun n (mesRun n mesInit (acts1 ++ [MesAct.close])) acts2).emitted
      = (mesRun n mesInit (acts1 ++ [MesAct.close])).emitted := by
  have hsplit : mesRun n mesInit (acts1 ++ [MesAct.close])
      = mesClose (mesRun n mesInit acts1) := by
    unfold mesRun
    rw [List.foldl_append]
    rfl
  have hq0 : mesInit.readyState = 2 → mesInit.aborted = true ∨ mesInit.phase = EmitPhase.done := by
    intro h
    exact absurd h (by simp [mesInit])
  have hq := mesQ_run n acts1 mesInit hq0
  have hP : (mesClose (mesRun n mesInit acts1)).readyState = 2
      ∧ ((mesClose (mesRun n mesInit acts1)).aborted = true
          ∨ (mesClose (mesRun n mesInit acts1)).phase = EmitPhase.done) := by
    unfold mesClose
    by_cases h2 : (mesRun n mesInit acts1).readyState = 2
    · simpa [h2] using hq h2
    · simp [h2]
  rw [hsplit]
  exact mesP_run n acts2 (mesClose (mesRun n mesInit acts1)) hP.1 hP.2
